import Mathlib

/-!
Verification of the multiplexed log writer (CombinedLogger) from the
KerryL/logging repository.

The embedding below models `CombinedLogger` and its nested
`CombinedStreamBuffer` from src/combinedLogger.cpp (first revision,
lines 1-270) and src/combinedLogger.h.  Strings are modelled as `List Char`,
the per-thread buffer map `std::map<std::thread::id, std::unique_ptr<Buffer>>`
as a function `Nat → Option Buffer` keyed by thread id, time points of
`std::chrono::steady_clock` as `Nat` (seconds), and output streams
(`std::ostream`) as records carrying the characters delivered so far plus a
flag saying whether writes to that stream fail.  Streams live in an arena
(`sinks : List Sink`); the `allLogs` / `ownedLogs` pointer vectors are lists
of arena indices, so pointer identity is index identity.

Mutexes do not appear explicitly: all operations are modelled as atomic state
transformations, and the one place where lock state is observable in the
sequential semantics - the try-lock of the janitor in `CleanupBuffers` - takes
the set of busy (externally locked) buffers as an explicit `busy : Nat → Bool`
argument.  During `sync` the calling thread holds its own buffer lock
(`localLock` returned by `CreateThreadBuffer`), which the model reflects by
adding the caller id to `busy` for the janitor scan that `sync` may trigger.
-/

/-- A registered output stream (`std::ostream`): the characters successfully
delivered to it so far, and whether writes to it report failure
(`ostream::fail()` after an insertion). -/
structure Sink where
  received : List Char
  fails : Bool
deriving DecidableEq, Repr

/-- Model of `CombinedStreamBuffer::Buffer` (combinedLogger.h lines 45-52): the
per-thread accumulator `ss` and the `lastFlushTime` time point, initialised
to `Clock::now()` when the buffer is constructed.  The member mutex is
modelled externally (see the module comment). -/
structure Buffer where
  ss : List Char
  lastFlushTime : Nat
deriving DecidableEq, Repr

/-- The state of one `CombinedLogger` object together with the arena of all
stream objects it can reach through pointers. -/
structure LoggerState where
  /-- Arena holding every stream object; indices play the role of pointers. -/
  sinks : List Sink
  /-- `ownedLogs : std::vector<std::unique_ptr<std::ostream>>` as arena indices. -/
  ownedLogs : List Nat
  /-- `allLogs : std::vector<std::ostream*>` as arena indices. -/
  allLogs : List Nat
  /-- `threadBuffer : BufferMap` keyed by thread id. -/
  threadBuffer : Nat → Option Buffer
  /-- `cleanupCount` (unsigned int). -/
  cleanupCount : Nat

/-- A freshly constructed `CombinedLogger`: no sinks, no thread buffers,
`cleanupCount = 0`. -/
def initState : LoggerState :=
  { sinks := []
    ownedLogs := []
    allLogs := []
    threadBuffer := fun _ => none
    cleanupCount := 0 }

/-- Errors surfaced by the component, following the error taxonomy of the spec: the
no-sinks assertion in `sync` and the null-sink assertion in `Add`. -/
inductive LogError where
  | configurationError
  | invalidArgument
deriving DecidableEq, Repr

/-- Model of `CombinedLogger::Add(std::unique_ptr<std::ostream>)`
(combinedLogger.cpp lines 31-37): `assert(log)` rejects a null pointer before
any mutation; otherwise the stream is appended to `ownedLogs` and its raw
pointer to `allLogs`.  The new arena slot index is the address of the new stream. -/
def addOwned (log : Option Sink) (st : LoggerState) : Except LogError LoggerState :=
  match log with
  | none => .error .invalidArgument
  | some s =>
      .ok { st with
        sinks := st.sinks ++ [s]
        ownedLogs := st.ownedLogs ++ [st.sinks.length]
        allLogs := st.allLogs ++ [st.sinks.length] }

/-- Model of `CombinedLogger::Add(std::ostream&)` (combinedLogger.cpp lines 55-60):
`assert(log)` rejects an unset/bad stream before any mutation; otherwise only
its pointer is appended to `allLogs` (caller keeps ownership). -/
def addBorrowed (log : Option Sink) (st : LoggerState) : Except LogError LoggerState :=
  match log with
  | none => .error .invalidArgument
  | some s =>
      .ok { st with
        sinks := st.sinks ++ [s]
        allLogs := st.allLogs ++ [st.sinks.length] }

/-- Model of `CombinedStreamBuffer::CreateThreadBuffer` (combinedLogger.cpp lines
205-219), sequential effect: if the calling thread has no buffer yet, insert a
fresh one (whose `lastFlushTime` member initialiser records the creation
time `now`); otherwise leave the map unchanged.  The returned lock on the
own buffer of the caller is modelled at the use sites. -/
def createThreadBuffer (tid now : Nat) (st : LoggerState) : LoggerState :=
  match st.threadBuffer tid with
  | some _ => st
  | none =>
      { st with threadBuffer := fun t =>
          if t = tid then some { ss := [], lastFlushTime := now } else st.threadBuffer t }

/-- Model of `CombinedStreamBuffer::overflow(int c)` (combinedLogger.cpp lines
123-137): ensure the buffer of the calling thread exists, then, unless `c` is
`traits_type::eof()` (modelled as `none`), append the character to that
accumulator `ss` of that thread. -/
def overflow (tid now : Nat) (c : Option Char) (st : LoggerState) : LoggerState :=
  let st1 := createThreadBuffer tid now st
  match c with
  | none => st1
  | some ch =>
      { st1 with threadBuffer := fun t =>
          if t = tid then (st1.threadBuffer t).map (fun b => { b with ss := b.ss ++ [ch] })
          else st1.threadBuffer t }

/-- A sequence of `overflow` calls from one caller, one per character. -/
def writeChars (tid now : Nat) (cs : List Char) (st : LoggerState) : LoggerState :=
  cs.foldl (fun s c => overflow tid now (some c) s) st

/-- The outcome of `(*l << text).fail()` for the stream at arena index `i`:
an out-of-range index (dangling pointer, never reached from well-formed
states) also counts as a failed write. -/
def sinkFailsAt (sinks : List Sink) (i : Nat) : Bool :=
  match sinks[i]? with
  | some s => s.fails
  | none => true

/-- One iteration of the sink loop in `sync`: `(*l << text).fail()` followed
by `l->flush()`.  On success the text is appended to what the stream has
received; on failure the stream receives nothing and the failure is
reported. -/
def writeToSink (content : List Char) (sinks : List Sink) (i : Nat) : List Sink × Bool :=
  match sinks[i]? with
  | some s =>
      if s.fails then (sinks, true)
      else (sinks.set i { s with received := s.received ++ content }, false)
  | none => (sinks, true)

/-- The full sink loop of `sync` (combinedLogger.cpp lines 171-176): write
the accumulated text of the caller to every registered stream in `allLogs` order,
left to right, OR-ing the per-stream failure results (`result = -1` sticks). -/
def writeAll (content : List Char) (idxs : List Nat) (sinks : List Sink) : List Sink × Bool :=
  match idxs with
  | [] => (sinks, false)
  | i :: rest =>
      let step := writeToSink content sinks i
      let restResult := writeAll content rest step.1
      (restResult.1, step.2 || restResult.2)

/-- Constant `maxCleanupCount` (combinedLogger.cpp line 78): 10. -/
def maxCleanupCount : Nat := 10

/-- Constant `idleThreadTimeThreshold` (combinedLogger.cpp lines 79-80):
`std::chrono::minutes(1)`, in seconds. -/
def idleThreadTimeThreshold : Nat := 60

/-- The per-buffer janitor predicate (combinedLogger.cpp lines 247-260):
`try_to_lock` on the own mutex of the buffer fails when the buffer is busy, in
which case the buffer is presumed active and kept; otherwise the buffer is
removed exactly when its accumulator is empty and `now - lastFlushTime`
exceeds the idle threshold. -/
def needsCleanup (busy : Nat → Bool) (now tid : Nat) (b : Buffer) : Bool :=
  if busy tid then false
  else b.ss.isEmpty && decide (now - b.lastFlushTime > idleThreadTimeThreshold)

/-- Model of `CombinedStreamBuffer::CleanupBuffers` (combinedLogger.cpp lines
241-270): erase from the map every buffer for which `needsCleanup` holds. -/
def cleanupBuffers (busy : Nat → Bool) (now : Nat) (st : LoggerState) : LoggerState :=
  { st with threadBuffer := fun t =>
      match st.threadBuffer t with
      | some b => if needsCleanup busy now t b then none else some b
      | none => none }

/-- The accumulated text of the caller: contents of its thread buffer, or empty
when the thread has no buffer. -/
def bufferContent (st : LoggerState) (tid : Nat) : List Char :=
  match st.threadBuffer tid with
  | some b => b.ss
  | none => []

/-- Model of `CombinedStreamBuffer::sync` (combinedLogger.cpp lines 158-186):
`assert(log.allLogs.size() > 0)`, then ensure the buffer of the caller exists
(holding its lock for the rest of the call), write its contents to every
registered stream under the log lock, bump `cleanupCount` (an unsigned int,
hence the modulus) and run the janitor when it reaches `maxCleanupCount`,
and finally clear the accumulator of the caller.  Returns 0, or -1 if any stream
write failed.  While the janitor runs, the caller holds its own buffer lock,
so its buffer counts as busy. -/
def sync (tid now : Nat) (busy : Nat → Bool) (st : LoggerState) :
    Except LogError (Int × LoggerState) :=
  if st.allLogs.length = 0 then .error .configurationError
  else
    let st1 := createThreadBuffer tid now st
    let wr := writeAll (bufferContent st1 tid) st1.allLogs st1.sinks
    let count2 := (st1.cleanupCount + 1) % 4294967296
    let st2 := { st1 with sinks := wr.1, cleanupCount := count2 }
    let st3 :=
      if count2 = maxCleanupCount then
        cleanupBuffers (fun t => busy t || (t == tid)) now st2
      else st2
    let st4 := { st3 with threadBuffer := fun t =>
        if t = tid then (st3.threadBuffer t).map (fun b => { b with ss := [] })
        else st3.threadBuffer t }
    .ok (if wr.2 then -1 else 0, st4)

/-- The externally visible operations of the writer, for stating invariants
preserved by every operation.  The two `Add` overloads keep the state
unchanged when their argument assertion fires, and a `sync` whose no-sinks
assertion fires likewise leaves the state unchanged. -/
inductive LogOp where
  | add (log : Option Sink)
  | addRef (log : Option Sink)
  | write (tid now : Nat) (c : Option Char)
  | flush (tid now : Nat) (busy : Nat → Bool)

/-- Apply one operation to the state (error paths leave the state as is). -/
def applyOp (op : LogOp) (st : LoggerState) : LoggerState :=
  match op with
  | .add l =>
      match addOwned l st with
      | .ok st1 => st1
      | .error _ => st
  | .addRef l =>
      match addBorrowed l st with
      | .ok st1 => st1
      | .error _ => st
  | .write tid now c => overflow tid now c st
  | .flush tid now busy =>
      match sync tid now busy st with
      | .ok r => r.2
      | .error _ => st

/-- Observation helper: the characters received so far by the stream at
arena index `i`. -/
def receivedAt (sinks : List Sink) (i : Nat) : List Char :=
  match sinks[i]? with
  | some s => s.received
  | none => []

/-- A registered stream in good state: present in the arena and not
failing. -/
def goodSink (sinks : List Sink) (i : Nat) : Bool :=
  !(sinkFailsAt sinks i)

/-- The `lastFlushTime` that the buffer of the caller carries right after a `sync` at
time `now`: unchanged if the buffer already existed, else the creation time
`now` (the code never assigns `lastFlushTime` after construction). -/
def flushStamp (st : LoggerState) (tid now : Nat) : Nat :=
  match st.threadBuffer tid with
  | some b => b.lastFlushTime
  | none => now

/-!
Fine-grained model of the lookup-or-create race in `CreateThreadBuffer`.

The repository carries two revisions of this function:
  - combinedLogger.cpp lines 205-219: check `threadBuffer.find(id)` without
    the map lock; if absent, acquire `bufferMutex` and assign
    `threadBuffer[id] = make_unique<Buffer>(...)` unconditionally;
  - combinedLogger.cpp lines 457-466: same, but after acquiring the lock the
    absence check is repeated (double-checked locking) and the assignment
    happens only if the key is still absent.
The model below runs two concurrent lookup-or-create operations for the same
key under an arbitrary interleaving (schedule).  `recheck = false` is the
first revision, `recheck = true` the second.  `created` counts `Buffer`
constructions; the map is an association list with `operator[]` assignment
semantics (overwrite if present, append if absent).
-/

/-- Test `std::map::find(id) != end()` on the association-list model. -/
def mapHas (k : Nat) (m : List (Nat × Nat)) : Bool :=
  m.any (fun kv => kv.1 == k)

/-- Assignment `threadBuffer[id] = v`: overwrite the entry if the key is present,
append it otherwise (keys stay unique either way). -/
def mapSet (k v : Nat) : List (Nat × Nat) → List (Nat × Nat)
  | [] => [(k, v)]
  | kv :: rest => if kv.1 = k then (k, v) :: rest else kv :: mapSet k v rest

/-- Program counter of one lookup-or-create operation: about to do the
unlocked check, waiting for `bufferMutex`, holding `bufferMutex`, done. -/
inductive RacePC where
  | start
  | waiting
  | locked
  | finished
deriving DecidableEq, Repr

/-- Shared state of the two racing lookup-or-create operations: the buffer
map (values are construction serial numbers), the number of `Buffer` objects
constructed so far, who holds `bufferMutex`, and the per-operation program
counter. -/
structure RaceState where
  table : List (Nat × Nat)
  created : Nat
  lockBy : Option Bool
  pcA : RacePC
  pcB : RacePC
deriving DecidableEq, Repr

/-- Initial race state: empty map, nothing constructed, lock free, both
operations about to run. -/
def initRace2 : RaceState :=
  { table := [], created := 0, lockBy := none, pcA := .start, pcB := .start }

def racePcOf (t : Bool) (s : RaceState) : RacePC :=
  if t then s.pcB else s.pcA

def raceSetPc (t : Bool) (pc : RacePC) (s : RaceState) : RaceState :=
  if t then { s with pcB := pc } else { s with pcA := pc }

/-- One atomic step of operation `t` (false = first thread, true = second)
of `CreateThreadBuffer` for key `id`.  With `recheck = true` the locked
section repeats the absence check before constructing (combinedLogger.cpp
lines 457-466); with `recheck = false` it constructs and assigns
unconditionally (combinedLogger.cpp lines 205-219).  A step by a blocked or
finished operation is a no-op. -/
def raceStep (recheck : Bool) (id : Nat) (t : Bool) (s : RaceState) : RaceState :=
  match racePcOf t s with
  | .start =>
      if mapHas id s.table then raceSetPc t .finished s
      else raceSetPc t .waiting s
  | .waiting =>
      match s.lockBy with
      | none => raceSetPc t .locked { s with lockBy := some t }
      | some _ => s
  | .locked =>
      if recheck && mapHas id s.table then
        raceSetPc t .finished { s with lockBy := none }
      else
        raceSetPc t .finished
          { s with table := mapSet id s.created s.table
                   created := s.created + 1
                   lockBy := none }
  | .finished => s

/-- Run the race under a schedule: each entry picks which operation steps. -/
def runRace (recheck : Bool) (id : Nat) : List Bool → RaceState → RaceState
  | [], s => s
  | t :: rest, s => runRace recheck id rest (raceStep recheck id t s)

/-!
Janitor trigger counter of the templated revision
(combinedLogger.h lines 350-382): its `sync` runs
`if (++cleanupCount == maxCleanupCount) { CleanupBuffers(); cleanupCount = 0; }`
with `maxCleanupCount = 100` (combinedLogger.h line 268), i.e. unlike the
non-templated revision it resets the counter after a scan.
-/

/-- Constant `maxCleanupCount` of the templated revision (combinedLogger.h line 268). -/
def maxCleanupCountT : Nat := 100

/-- Counter transition of one templated `sync` (combinedLogger.h lines
372-376): increment (unsigned int), scan and reset on reaching
`maxCleanupCountT`.  Returns the new counter and whether the scan ran. -/
def cleanupStepT (c : Nat) : Nat × Bool :=
  let c1 := (c + 1) % 4294967296
  if c1 = maxCleanupCountT then (0, true) else (c1, false)

/-- Value of `cleanupCount` of the templated revision after `m` flushes from a fresh
writer. -/
def cleanupCountAfterT : Nat → Nat
  | 0 => 0
  | m + 1 => (cleanupStepT (cleanupCountAfterT m)).1

/-- Whether the `m`-th flush (1-indexed) of the templated revision triggers
the janitor scan. -/
def scanAtFlushT (m : Nat) : Bool :=
  match m with
  | 0 => false
  | m + 1 => (cleanupStepT (cleanupCountAfterT m)).2

/-- Iterate `sync` for one caller: `m` flushes in a row at time `now` (the
error path, never taken in our uses, repeats the same state). -/
def runFlushes (tid now : Nat) (busy : Nat → Bool) : Nat → LoggerState → LoggerState
  | 0, st => st
  | m + 1, st =>
      match sync tid now busy st with
      | .ok r => runFlushes tid now busy m r.2
      | .error _ => st

/-- The invariant relating the owned-sink list to the combined sink list:
every owned stream pointer also appears in `allLogs`, and `allLogs` is at
least as long as `ownedLogs`. -/
def sinkInvariant (st : LoggerState) : Prop :=
  (∀ p ∈ st.ownedLogs, p ∈ st.allLogs) ∧ st.ownedLogs.length ≤ st.allLogs.length

/-- A healthy stream that has received nothing yet. -/
def cleanSink : Sink := { received := [], fails := false }

/-- A stream whose writes fail. -/
def brokenSink : Sink := { received := [], fails := true }

/-- A writer with one healthy owned sink registered. -/
def oneSinkState : LoggerState := applyOp (.add (some cleanSink)) initState

/-- A writer with three sinks registered in order: healthy (owned), failing
(borrowed), healthy (owned). -/
def threeSinkState : LoggerState :=
  applyOp (.add (some cleanSink))
    (applyOp (.addRef (some brokenSink)) (applyOp (.add (some cleanSink)) initState))

/-! Helper lemmas about the sink loop. -/

theorem writeToSink_length (content : List Char) (sinks : List Sink) (i : Nat) :
    (writeToSink content sinks i).1.length = sinks.length := by
  unfold writeToSink
  cases hsi : sinks[i]? with
  | none => rfl
  | some s =>
    by_cases hf : s.fails
    · simp [hf]
    · simp [hf]

theorem writeToSink_other (content : List Char) (sinks : List Sink) (i j : Nat)
    (h : i ≠ j) : (writeToSink content sinks i).1[j]? = sinks[j]? := by
  unfold writeToSink
  cases hsi : sinks[i]? with
  | none => rfl
  | some s =>
    by_cases hf : s.fails
    · simp [hf]
    · simp [hf, List.getElem?_set_ne h]

theorem writeToSink_sinkFailsAt (content : List Char) (sinks : List Sink) (i j : Nat) :
    sinkFailsAt (writeToSink content sinks i).1 j = sinkFailsAt sinks j := by
  unfold writeToSink
  cases hsi : sinks[i]? with
  | none => rfl
  | some s =>
    by_cases hf : s.fails
    · simp [hf]
    · simp only [hf, Bool.false_eq_true, if_false]
      by_cases hij : i = j
      · subst hij
        have hlt : i < sinks.length := by
          by_contra hge
          simp [List.getElem?_eq_none (Nat.le_of_not_lt hge)] at hsi
        simp [sinkFailsAt, List.getElem?_set_self, hlt, hsi, hf]
      · simp [sinkFailsAt, List.getElem?_set_ne hij]

theorem writeToSink_flag (content : List Char) (sinks : List Sink) (i : Nat) :
    (writeToSink content sinks i).2 = sinkFailsAt sinks i := by
  unfold writeToSink sinkFailsAt
  cases hsi : sinks[i]? with
  | none => rfl
  | some s =>
    by_cases hf : s.fails
    · simp [hf]
    · simp [hf]

theorem writeToSink_self (content : List Char) (sinks : List Sink) (i : Nat) (s : Sink)
    (hsi : sinks[i]? = some s) (hf : s.fails = false) :
    (writeToSink content sinks i).1[i]? =
      some { s with received := s.received ++ content } := by
  unfold writeToSink
  have hlt : i < sinks.length := by
    by_contra hge
    simp [List.getElem?_eq_none (Nat.le_of_not_lt hge)] at hsi
  simp [hsi, hf, List.getElem?_set_self, hlt]

theorem writeAll_untouched (content : List Char) (idxs : List Nat) (sinks : List Sink)
    (j : Nat) (h : j ∉ idxs) : (writeAll content idxs sinks).1[j]? = sinks[j]? := by
  induction idxs generalizing sinks with
  | nil => rfl
  | cons i rest ih =>
    have hij : i ≠ j := fun he => h (he ▸ List.mem_cons_self i rest)
    have hrest : j ∉ rest := fun hm => h (List.mem_cons_of_mem i hm)
    show (writeAll content rest (writeToSink content sinks i).1).1[j]? = sinks[j]?
    rw [ih _ hrest, writeToSink_other content sinks i j hij]

theorem writeAll_sinkFailsAt (content : List Char) (idxs : List Nat) (sinks : List Sink)
    (j : Nat) : sinkFailsAt (writeAll content idxs sinks).1 j = sinkFailsAt sinks j := by
  induction idxs generalizing sinks with
  | nil => rfl
  | cons i rest ih =>
    show sinkFailsAt (writeAll content rest (writeToSink content sinks i).1).1 j = _
    rw [ih, writeToSink_sinkFailsAt]

theorem writeAll_flag (content : List Char) (idxs : List Nat) (sinks : List Sink) :
    (writeAll content idxs sinks).2 = idxs.any (sinkFailsAt sinks) := by
  induction idxs generalizing sinks with
  | nil => rfl
  | cons i rest ih =>
    show ((writeToSink content sinks i).2
        || (writeAll content rest (writeToSink content sinks i).1).2) = _
    have hfun : sinkFailsAt (writeToSink content sinks i).1 = sinkFailsAt sinks :=
      funext (writeToSink_sinkFailsAt content sinks i)
    rw [ih, writeToSink_flag, hfun, List.any_cons]

theorem writeAll_received (content : List Char) (idxs : List Nat) (sinks : List Sink)
    (j : Nat) (hnd : idxs.Nodup) (hj : j ∈ idxs) (s : Sink)
    (hsj : sinks[j]? = some s) (hf : s.fails = false) :
    (writeAll content idxs sinks).1[j]? =
      some { s with received := s.received ++ content } := by
  induction idxs generalizing sinks with
  | nil => cases hj
  | cons i rest ih =>
    have hnd2 := List.nodup_cons.mp hnd
    show (writeAll content rest (writeToSink content sinks i).1).1[j]? = _
    rcases List.mem_cons.mp hj with he | hm
    · subst he
      rw [writeAll_untouched _ _ _ _ hnd2.1]
      exact writeToSink_self content sinks j s hsj hf
    · have hij : i ≠ j := by
        rintro rfl
        exact hnd2.1 hm
      exact ih _ hnd2.2 hm (by rw [writeToSink_other content sinks i j hij]; exact hsj)

/-! Helper lemmas about buffer creation, the janitor, and `sync`. -/

theorem createThreadBuffer_sinks (tid now : Nat) (st : LoggerState) :
    (createThreadBuffer tid now st).sinks = st.sinks := by
  unfold createThreadBuffer
  cases st.threadBuffer tid <;> rfl

theorem createThreadBuffer_allLogs (tid now : Nat) (st : LoggerState) :
    (createThreadBuffer tid now st).allLogs = st.allLogs := by
  unfold createThreadBuffer
  cases st.threadBuffer tid <;> rfl

theorem createThreadBuffer_ownedLogs (tid now : Nat) (st : LoggerState) :
    (createThreadBuffer tid now st).ownedLogs = st.ownedLogs := by
  unfold createThreadBuffer
  cases st.threadBuffer tid <;> rfl

theorem createThreadBuffer_cleanupCount (tid now : Nat) (st : LoggerState) :
    (createThreadBuffer tid now st).cleanupCount = st.cleanupCount := by
  unfold createThreadBuffer
  cases st.threadBuffer tid <;> rfl

theorem createThreadBuffer_self (tid now : Nat) (st : LoggerState) :
    (createThreadBuffer tid now st).threadBuffer tid =
      some { ss := bufferContent st tid, lastFlushTime := flushStamp st tid now } := by
  unfold createThreadBuffer bufferContent flushStamp
  cases hb : st.threadBuffer tid with
  | some b => simp [hb]
  | none => simp [hb]

theorem createThreadBuffer_content (tid now : Nat) (st : LoggerState) :
    bufferContent (createThreadBuffer tid now st) tid = bufferContent st tid := by
  rw [bufferContent, createThreadBuffer_self]

theorem cleanupBuffers_busy (busy : Nat → Bool) (now t : Nat) (st : LoggerState)
    (hb : busy t = true) :
    (cleanupBuffers busy now st).threadBuffer t = st.threadBuffer t := by
  unfold cleanupBuffers
  cases hx : st.threadBuffer t with
  | none => simp [hx]
  | some b => simp [hx, needsCleanup, hb]

/-- Full characterisation of a `sync` call when at least one sink is
registered: it succeeds; the return value is -1 exactly when some registered
stream write fails; the sink lists are untouched; the delivered text is the
pre-call buffer content of the caller, written to the streams by `writeAll`; and
afterwards the buffer of the caller exists, is empty, and keeps its old
`lastFlushTime` (or the creation time `now` if it was just created). -/
theorem sync_spec (tid now : Nat) (busy : Nat → Bool) (st : LoggerState)
    (h : st.allLogs ≠ []) :
    ∃ r st', sync tid now busy st = .ok (r, st') ∧
      r = (if st.allLogs.any (sinkFailsAt st.sinks) then (-1 : Int) else 0) ∧
      st'.allLogs = st.allLogs ∧ st'.ownedLogs = st.ownedLogs ∧
      st'.sinks = (writeAll (bufferContent st tid) st.allLogs st.sinks).1 ∧
      st'.threadBuffer tid =
        some { ss := [], lastFlushTime := flushStamp st tid now } := by
  have h0 : ¬ (st.allLogs.length = 0) := by
    simpa [List.length_eq_zero] using h
  unfold sync
  rw [if_neg h0]
  refine ⟨_, _, rfl, ?_, ?_, ?_, ?_, ?_⟩
  · rw [createThreadBuffer_content, createThreadBuffer_allLogs, createThreadBuffer_sinks,
      writeAll_flag]
  · split <;> simp [cleanupBuffers, createThreadBuffer_allLogs]
  · split <;> simp [cleanupBuffers, createThreadBuffer_ownedLogs]
  · split <;>
      simp [cleanupBuffers, createThreadBuffer_content, createThreadBuffer_allLogs,
        createThreadBuffer_sinks]
  · simp only [if_pos rfl]
    by_cases hc :
        ((createThreadBuffer tid now st).cleanupCount + 1) % 4294967296 = maxCleanupCount
    · rw [if_pos hc, cleanupBuffers_busy _ _ _ _ (by simp)]
      simp [createThreadBuffer_self]
    · rw [if_neg hc]
      simp [createThreadBuffer_self]

/-! Helper lemmas about `overflow` and `writeChars`. -/

theorem overflow_sinks (tid now : Nat) (c : Option Char) (st : LoggerState) :
    (overflow tid now c st).sinks = st.sinks := by
  unfold overflow
  cases c with
  | none => exact createThreadBuffer_sinks tid now st
  | some ch => simp [createThreadBuffer_sinks]

theorem overflow_allLogs (tid now : Nat) (c : Option Char) (st : LoggerState) :
    (overflow tid now c st).allLogs = st.allLogs := by
  unfold overflow
  cases c with
  | none => exact createThreadBuffer_allLogs tid now st
  | some ch => simp [createThreadBuffer_allLogs]

theorem overflow_ownedLogs (tid now : Nat) (c : Option Char) (st : LoggerState) :
    (overflow tid now c st).ownedLogs = st.ownedLogs := by
  unfold overflow
  cases c with
  | none => exact createThreadBuffer_ownedLogs tid now st
  | some ch => simp [createThreadBuffer_ownedLogs]

theorem overflow_self (tid now : Nat) (c : Option Char) (st : LoggerState) :
    (overflow tid now c st).threadBuffer tid ≠ none := by
  unfold overflow
  cases c with
  | none => simp [createThreadBuffer_self]
  | some ch => simp [createThreadBuffer_self]

theorem overflow_content (tid now : Nat) (ch : Char) (st : LoggerState) :
    bufferContent (overflow tid now (some ch) st) tid = bufferContent st tid ++ [ch] := by
  have h : (overflow tid now (some ch) st).threadBuffer tid =
      some { ss := bufferContent st tid ++ [ch], lastFlushTime := flushStamp st tid now } := by
    unfold overflow
    simp [createThreadBuffer_self]
  simp [bufferContent, h]

theorem writeChars_sinks (tid now : Nat) (cs : List Char) (st : LoggerState) :
    (writeChars tid now cs st).sinks = st.sinks := by
  induction cs generalizing st with
  | nil => rfl
  | cons c rest ih =>
    show (writeChars tid now rest (overflow tid now (some c) st)).sinks = st.sinks
    rw [ih, overflow_sinks]

theorem writeChars_allLogs (tid now : Nat) (cs : List Char) (st : LoggerState) :
    (writeChars tid now cs st).allLogs = st.allLogs := by
  induction cs generalizing st with
  | nil => rfl
  | cons c rest ih =>
    show (writeChars tid now rest (overflow tid now (some c) st)).allLogs = st.allLogs
    rw [ih, overflow_allLogs]

theorem writeChars_content (tid now : Nat) (cs : List Char) (st : LoggerState) :
    bufferContent (writeChars tid now cs st) tid = bufferContent st tid ++ cs := by
  induction cs generalizing st with
  | nil => simp [writeChars]
  | cons c rest ih =>
    show bufferContent (writeChars tid now rest (overflow tid now (some c) st)) tid = _
    rw [ih, overflow_content]
    simp

/-! Helper lemmas about the lookup-or-create race model. -/

theorem raceSetPc_table (t : Bool) (pc : RacePC) (s : RaceState) :
    (raceSetPc t pc s).table = s.table := by
  cases t <;> rfl

theorem raceSetPc_created (t : Bool) (pc : RacePC) (s : RaceState) :
    (raceSetPc t pc s).created = s.created := by
  cases t <;> rfl

theorem mapSet_mem (k v : Nat) (m : List (Nat × Nat)) :
    ∀ kv ∈ mapSet k v m, kv = (k, v) ∨ kv ∈ m := by
  induction m with
  | nil => simp [mapSet]
  | cons a rest ih =>
    intro kv hkv
    unfold mapSet at hkv
    by_cases ha : a.1 = k
    · rw [if_pos ha] at hkv
      rcases List.mem_cons.mp hkv with he | hm
      · exact Or.inl he
      · exact Or.inr (List.mem_cons_of_mem a hm)
    · rw [if_neg ha] at hkv
      rcases List.mem_cons.mp hkv with he | hm
      · exact Or.inr (he ▸ List.mem_cons_self a rest)
      · rcases ih kv hm with h1 | h2
        · exact Or.inl h1
        · exact Or.inr (List.mem_cons_of_mem a h2)

theorem mapSet_length_of_has (k v : Nat) (m : List (Nat × Nat))
    (h : mapHas k m = true) : (mapSet k v m).length = m.length := by
  induction m with
  | nil => simp [mapHas] at h
  | cons a rest ih =>
    unfold mapSet
    by_cases ha : a.1 = k
    · simp [ha]
    · rw [if_neg ha]
      have hrest : mapHas k rest = true := by
        unfold mapHas at h
        rw [List.any_cons] at h
        rcases Bool.or_eq_true_iff.mp h with hx | hx
        · exact absurd (by simpa using hx) ha
        · exact hx
      simp [ih hrest]

theorem allid_of_not_has (id : Nat) (m : List (Nat × Nat))
    (h1 : ∀ kv ∈ m, kv.1 = id) (h2 : mapHas id m = false) : m = [] := by
  cases m with
  | nil => rfl
  | cons a rest =>
    exfalso
    have ha : a.1 = id := h1 a (List.mem_cons_self a rest)
    have : (a.1 == id) = false := by
      unfold mapHas at h2
      rw [List.any_cons] at h2
      exact (Bool.or_eq_false_iff.mp h2).1
    simp [ha] at this

/-- The invariant maintained by the race model: every key in the map is the
raced id, the map holds at most one entry, and under the double-checked
variant the number of constructed buffers equals the map size. -/
def raceInv (recheck : Bool) (id : Nat) (s : RaceState) : Prop :=
  (∀ kv ∈ s.table, kv.1 = id) ∧ s.table.length ≤ 1 ∧
    (recheck = true → s.created = s.table.length)

theorem raceStep_inv (recheck : Bool) (id : Nat) (t : Bool) (s : RaceState)
    (h : raceInv recheck id s) : raceInv recheck id (raceStep recheck id t s) := by
  obtain ⟨hkeys, hlen, hcre⟩ := h
  unfold raceStep
  cases racePcOf t s with
  | start =>
    by_cases hh : mapHas id s.table
    · rw [if_pos hh]
      exact ⟨by rw [raceSetPc_table]; exact hkeys,
        by rw [raceSetPc_table]; exact hlen,
        fun hr => by rw [raceSetPc_created, raceSetPc_table]; exact hcre hr⟩
    · rw [if_neg hh]
      exact ⟨by rw [raceSetPc_table]; exact hkeys,
        by rw [raceSetPc_table]; exact hlen,
        fun hr => by rw [raceSetPc_created, raceSetPc_table]; exact hcre hr⟩
  | waiting =>
    cases s.lockBy with
    | none =>
      exact ⟨by rw [raceSetPc_table]; exact hkeys,
        by rw [raceSetPc_table]; exact hlen,
        fun hr => by rw [raceSetPc_created, raceSetPc_table]; exact hcre hr⟩
    | some u => exact ⟨hkeys, hlen, hcre⟩
  | locked =>
    by_cases hh : recheck && mapHas id s.table
    · rw [if_pos hh]
      exact ⟨by rw [raceSetPc_table]; exact hkeys,
        by rw [raceSetPc_table]; exact hlen,
        fun hr => by rw [raceSetPc_created, raceSetPc_table]; exact hcre hr⟩
    · rw [if_neg hh]
      constructor
      · rw [raceSetPc_table]
        intro kv hkv
        rcases mapSet_mem id s.created s.table kv hkv with he | hm
        · rw [he]
        · exact hkeys kv hm
      constructor
      · rw [raceSetPc_table]
        by_cases hhas : mapHas id s.table
        · simp [mapSet_length_of_has id s.created s.table hhas, hlen]
        · rw [allid_of_not_has id s.table hkeys (Bool.not_eq_true _ ▸ hhas)]
          simp [mapSet]
      · intro hr
        rw [raceSetPc_created, raceSetPc_table]
        subst hr
        have hhas : mapHas id s.table = false := by
          cases hx : mapHas id s.table
          · rfl
          · exact absurd (by simp [hx]) hh
        rw [allid_of_not_has id s.table hkeys hhas]
        rw [allid_of_not_has id s.table hkeys hhas] at hcre
        simp [mapSet, hcre rfl]
  | finished => exact ⟨hkeys, hlen, hcre⟩

theorem runRace_inv (recheck : Bool) (id : Nat) (sched : List Bool) (s : RaceState)
    (h : raceInv recheck id s) : raceInv recheck id (runRace recheck id sched s) := by
  induction sched generalizing s with
  | nil => exact h
  | cons t rest ih =>
    exact ih _ (raceStep_inv recheck id t s h)

theorem nodup_fst_of_short (m : List (Nat × Nat)) (h : m.length ≤ 1) :
    (m.map Prod.fst).Nodup := by
  cases m with
  | nil => simp
  | cons a rest =>
    cases rest with
    | nil => simp
    | cons b r2 => simp at h

/-! Helper lemmas about the templated janitor counter. -/

theorem cleanupCountAfterT_eq (m : Nat) : cleanupCountAfterT m = m % 100 := by
  induction m with
  | zero => rfl
  | succ k ih =>
    show (cleanupStepT (cleanupCountAfterT k)).1 = (k + 1) % 100
    rw [ih]
    simp only [cleanupStepT, maxCleanupCountT]
    have h2 : (k % 100 + 1) % 4294967296 = k % 100 + 1 :=
      Nat.mod_eq_of_lt (by omega)
    rw [h2]
    by_cases h3 : k % 100 + 1 = 100
    · rw [if_pos h3]
      omega
    · rw [if_neg h3]
      omega

theorem goodSink_iff (sinks : List Sink) (i : Nat) :
    goodSink sinks i = true ↔ ∃ s, sinks[i]? = some s ∧ s.fails = false := by
  unfold goodSink sinkFailsAt
  cases h : sinks[i]? with
  | none => simp
  | some s => simp [h]

example : bufferContent (writeChars 1 0 ['x', 'y'] initState) 1 = ['x', 'y'] := by decide

/-! The claims. -/

/-- C1: for every sequence of `overflow` writes from a single caller followed
by one `sync`, each registered sink receives exactly the concatenation of the
written characters, in order, with no duplication or truncation. -/
theorem writes_then_flush_delivers_concat (tid now1 now2 : Nat) (busy : Nat → Bool)
    (st : LoggerState) (cs : List Char)
    (hne : st.allLogs ≠ []) (hnd : st.allLogs.Nodup)
    (hgood : ∀ i ∈ st.allLogs, goodSink st.sinks i = true)
    (hempty : bufferContent st tid = []) :
    ∃ st', sync tid now2 busy (writeChars tid now1 cs st) = .ok (0, st') ∧
      ∀ i ∈ st.allLogs, receivedAt st'.sinks i = receivedAt st.sinks i ++ cs := by
  have hA : (writeChars tid now1 cs st).allLogs = st.allLogs := writeChars_allLogs _ _ _ _
  have hS : (writeChars tid now1 cs st).sinks = st.sinks := writeChars_sinks _ _ _ _
  have hC : bufferContent (writeChars tid now1 cs st) tid = cs := by
    rw [writeChars_content, hempty]
    simp
  obtain ⟨r, st', heq, hr, _, _, hsinks, _⟩ :=
    sync_spec tid now2 busy (writeChars tid now1 cs st) (by rw [hA]; exact hne)
  have hnofail : (writeChars tid now1 cs st).allLogs.any
      (sinkFailsAt (writeChars tid now1 cs st).sinks) = false := by
    rw [hA, hS, List.any_eq_false]
    intro i hi
    have := hgood i hi
    unfold goodSink at this
    simp at this
    simp [this]
  rw [hnofail] at hr
  simp only [Bool.false_eq_true, if_false] at hr
  subst hr
  refine ⟨st', heq, ?_⟩
  intro i hi
  obtain ⟨s, hsi, hf⟩ := (goodSink_iff st.sinks i).mp (hgood i hi)
  have hw := writeAll_received (bufferContent (writeChars tid now1 cs st) tid)
    (writeChars tid now1 cs st).allLogs (writeChars tid now1 cs st).sinks i
    (by rw [hA]; exact hnd) (by rw [hA]; exact hi) s (by rw [hS]; exact hsi) hf
  rw [hC, hA, hS] at hw
  rw [receivedAt, hsinks, hA, hS, hC, hw, receivedAt, hsi]

/-- C1 witness: one healthy sink, a fresh caller writes x then y and flushes;
the sink receives exactly xy and the call succeeds. -/
theorem writes_then_flush_delivers_concat_witness :
    ∃ st', sync 1 5 (fun _ => false) (writeChars 1 0 ['x', 'y'] oneSinkState) = .ok (0, st') ∧
      ∀ i ∈ oneSinkState.allLogs,
        receivedAt st'.sinks i = receivedAt oneSinkState.sinks i ++ ['x', 'y'] :=
  writes_then_flush_delivers_concat 1 0 5 (fun _ => false) oneSinkState ['x', 'y']
    (by decide) (by decide) (by decide) (by decide)

/-- C2: when the write to a registered sink fails, `sync` still delivers the full
message to every healthy sink, returns the aggregate failure -1, and leaves
the sink registry (including the failing sink) unchanged. -/
theorem failing_sink_does_not_block_delivery (tid now : Nat) (busy : Nat → Bool)
    (st : LoggerState) (k : Nat)
    (hne : st.allLogs ≠ []) (hnd : st.allLogs.Nodup)
    (hk : k ∈ st.allLogs) (hbad : sinkFailsAt st.sinks k = true) :
    ∃ st', sync tid now busy st = .ok (-1, st') ∧
      st'.allLogs = st.allLogs ∧ st'.ownedLogs = st.ownedLogs ∧ k ∈ st'.allLogs ∧
      ∀ j ∈ st.allLogs, goodSink st.sinks j = true →
        receivedAt st'.sinks j = receivedAt st.sinks j ++ bufferContent st tid := by
  obtain ⟨r, st', heq, hr, hall, hown, hsinks, _⟩ := sync_spec tid now busy st hne
  have hsome : st.allLogs.any (sinkFailsAt st.sinks) = true :=
    List.any_eq_true.mpr ⟨k, hk, hbad⟩
  rw [hsome] at hr
  simp only [if_true] at hr
  subst hr
  refine ⟨st', heq, hall, hown, by rw [hall]; exact hk, ?_⟩
  intro j hj hgj
  obtain ⟨s, hsj, hf⟩ := (goodSink_iff st.sinks j).mp hgj
  have hw := writeAll_received (bufferContent st tid) st.allLogs st.sinks j hnd hj s hsj hf
  rw [receivedAt, hsinks, hw, receivedAt, hsj]

/-- C2 witness: three sinks, the middle one failing; the first and third
receive the full message, the call returns -1, and the registry keeps all
three sinks. -/
theorem failing_sink_does_not_block_delivery_witness :
    ∃ st', sync 1 0 (fun _ => false) (writeChars 1 0 ['h', 'i'] threeSinkState) = .ok (-1, st') ∧
      st'.allLogs = (writeChars 1 0 ['h', 'i'] threeSinkState).allLogs ∧
      st'.ownedLogs = (writeChars 1 0 ['h', 'i'] threeSinkState).ownedLogs ∧
      1 ∈ st'.allLogs ∧
      ∀ j ∈ (writeChars 1 0 ['h', 'i'] threeSinkState).allLogs,
        goodSink (writeChars 1 0 ['h', 'i'] threeSinkState).sinks j = true →
          receivedAt st'.sinks j =
            receivedAt (writeChars 1 0 ['h', 'i'] threeSinkState).sinks j ++
              bufferContent (writeChars 1 0 ['h', 'i'] threeSinkState) 1 :=
  failing_sink_does_not_block_delivery 1 0 (fun _ => false)
    (writeChars 1 0 ['h', 'i'] threeSinkState) 1
    (by decide) (by decide) (by decide) (by decide)

/-- C3: after any successful flush the buffer of the caller exists and is empty;
and a flush issued with an already-empty buffer writes the empty string to
every sink and returns success. -/
theorem flush_empties_buffer_and_empty_flush_succeeds (tid now : Nat)
    (busy : Nat → Bool) (st : LoggerState) (r : Int) (st1 : LoggerState) :
    (sync tid now busy st = .ok (r, st1) →
      bufferContent st1 tid = [] ∧ st1.threadBuffer tid ≠ none) ∧
    (bufferContent st tid = [] → st.allLogs ≠ [] → st.allLogs.Nodup →
      (∀ i ∈ st.allLogs, goodSink st.sinks i = true) →
      ∃ st2, sync tid now busy st = .ok (0, st2) ∧
        ∀ i ∈ st.allLogs, receivedAt st2.sinks i = receivedAt st.sinks i ++ []) := by
  constructor
  · intro heq
    have hne : st.allLogs ≠ [] := by
      intro hnil
      have h0 : st.allLogs.length = 0 := by rw [hnil]; rfl
      unfold sync at heq
      rw [if_pos h0] at heq
      cases heq
    obtain ⟨r2, st2, heq2, _, _, _, _, hbuf⟩ := sync_spec tid now busy st hne
    rw [heq] at heq2
    have hst : st1 = st2 := by
      cases heq2
      rfl
    subst hst
    rw [bufferContent, hbuf]
    simp
  · intro hempty hne hnd hgood
    have h := writes_then_flush_delivers_concat tid now now busy st [] hne hnd hgood hempty
    rw [writeChars] at h
    simpa using h

/-- C3 witness: one healthy sink; an empty-buffer flush succeeds, delivers
the empty string, and leaves the buffer empty. -/
theorem flush_empties_buffer_and_empty_flush_succeeds_witness :
    ∃ st2, sync 1 0 (fun _ => false) oneSinkState = .ok (0, st2) ∧
      bufferContent st2 1 = [] ∧
      ∀ i ∈ oneSinkState.allLogs,
        receivedAt st2.sinks i = receivedAt oneSinkState.sinks i ++ [] := by
  obtain ⟨st2, heq, hrec⟩ :=
    (flush_empties_buffer_and_empty_flush_succeeds 1 0 (fun _ => false) oneSinkState 0
      oneSinkState).2 (by decide) (by decide) (by decide) (by decide)
  refine ⟨st2, heq, ?_, hrec⟩
  exact ((flush_empties_buffer_and_empty_flush_succeeds 1 0 (fun _ => false) oneSinkState 0
    st2).1 heq).1

/-- C4: a flush with zero registered sinks hits the no-sinks assertion (the
fatal ConfigurationError), and with at least one registered sink the
assertion never fires and the call completes. -/
theorem flush_without_sinks_asserts (tid now : Nat) (busy : Nat → Bool)
    (st : LoggerState) :
    (st.allLogs = [] → sync tid now busy st = .error .configurationError) ∧
    (st.allLogs ≠ [] → ∃ r st', sync tid now busy st = .ok (r, st')) := by
  constructor
  · intro h
    unfold sync
    rw [if_pos (by rw [h]; rfl)]
  · intro h
    obtain ⟨r, st', heq, _⟩ := sync_spec tid now busy st h
    exact ⟨r, st', heq⟩

/-- C4 witness: a flush on a fresh writer asserts; after registering one sink
the flush completes. -/
theorem flush_without_sinks_asserts_witness :
    sync 1 0 (fun _ => false) initState = .error .configurationError ∧
    ∃ r st', sync 1 0 (fun _ => false) oneSinkState = .ok (r, st') :=
  ⟨(flush_without_sinks_asserts 1 0 (fun _ => false) initState).1 rfl,
    (flush_without_sinks_asserts 1 0 (fun _ => false) oneSinkState).2 (by decide)⟩

example :
    (match sync 1 5 (fun _ => false) (applyOp (.add (some { received := [], fails := false })) initState) with
     | .ok r => some (r.1, receivedAt r.2.sinks 0)
     | .error _ => none) = some (0, []) := by decide

/-- C5 counterexample: the revision of CreateThreadBuffer at
combinedLogger.cpp lines 205-219 does not re-verify absence after acquiring
the table lock; under the interleaving where both operations pass the
unlocked check before either inserts, two Buffer objects are constructed for
the same identity. -/
theorem lookup_or_create_no_recheck_creates_twice :
    (runRace false 7 [false, true, false, false, true, true] initRace2).created = 2 := by
  decide

/-- C5 amended: table keys stay unique under every interleaving in both
revisions, and the double-checked revision (combinedLogger.cpp lines 457-466)
constructs at most one buffer per identity under every interleaving. -/
theorem lookup_or_create_double_checked_unique (recheck : Bool) (id : Nat)
    (sched : List Bool) :
    (((runRace recheck id sched initRace2).table.map Prod.fst).Nodup) ∧
    (recheck = true → (runRace recheck id sched initRace2).created ≤ 1) := by
  have hinv := runRace_inv recheck id sched initRace2
    ⟨fun kv hkv => (List.not_mem_nil kv hkv).elim, by decide, fun _ => rfl⟩
  obtain ⟨hkeys, hlen, hcre⟩ := hinv
  refine ⟨nodup_fst_of_short _ hlen, fun hr => ?_⟩
  rw [hcre hr]
  exact hlen

/-- C5 witness: the racy schedule of the counterexample, replayed against the
double-checked revision, constructs one buffer and keeps keys unique. -/
theorem lookup_or_create_double_checked_unique_witness :
    (((runRace true 7 [false, true, false, false, true, true] initRace2).table.map
      Prod.fst).Nodup) ∧
    (runRace true 7 [false, true, false, false, true, true] initRace2).created ≤ 1 :=
  ⟨(lookup_or_create_double_checked_unique true 7 [false, true, false, false, true, true]).1,
    (lookup_or_create_double_checked_unique true 7 [false, true, false, false, true, true]).2
      rfl⟩

/-- C6: the claim says every flush updates the last-flush
timestamp, but `sync` never assigns `lastFlushTime` (it is set only by the
`Buffer` member initialiser at creation).  Concretely: a buffer created at
time 0 still carries `lastFlushTime = 0` after a flush at time 100. -/
theorem flush_does_not_update_lastFlushTime :
    (match sync 1 100 (fun _ => false) (overflow 1 0 (some 'x') oneSinkState) with
     | .ok r => (r.2.threadBuffer 1).map Buffer.lastFlushTime
     | .error _ => none) = some 0 := by
  decide

/-- C7 counterexample: in the non-templated revision (combinedLogger.cpp
lines 179-180, maxCleanupCount = 10) `cleanupCount` is never reset, so the
janitor scan fires on the 10th flush (the idle tid-2 buffer is evicted) but
not on the 20th (an equally idle tid-3 buffer survives 10 further flushes). -/
theorem janitor_scan_does_not_recur :
    ((runFlushes 1 100 (fun _ => false) 10 (overflow 2 0 none oneSinkState)).threadBuffer 2
        = none) ∧
    ((runFlushes 1 1000000 (fun _ => false) 10
        (overflow 3 100 none
          (runFlushes 1 100 (fun _ => false) 10
            (overflow 2 0 none oneSinkState)))).threadBuffer 3 ≠ none) := by
  decide

/-- C7 amended: in the templated revision (combinedLogger.h lines 372-376),
which resets the counter after a scan, the janitor scan recurs on exactly
every 100th flush (the 100th, 200th, 300th, ...). -/
theorem janitor_scan_every_nth_flush_templated (m : Nat) (h : 0 < m) :
    scanAtFlushT m = true ↔ m % 100 = 0 := by
  cases m with
  | zero => cases h
  | succ k =>
    show (cleanupStepT (cleanupCountAfterT k)).2 = true ↔ _
    rw [cleanupCountAfterT_eq]
    simp only [cleanupStepT, maxCleanupCountT]
    have h2 : (k % 100 + 1) % 4294967296 = k % 100 + 1 :=
      Nat.mod_eq_of_lt (by omega)
    rw [h2]
    by_cases h3 : k % 100 + 1 = 100
    · rw [if_pos h3]
      simp only [true_iff]
      omega
    · rw [if_neg h3]
      simp only [Bool.false_eq_true, false_iff]
      omega

/-- C7 witness: the templated revision scans on the 100th and again on the
200th flush, and not on the 150th. -/
theorem janitor_scan_every_nth_flush_templated_witness :
    scanAtFlushT 100 = true ∧ scanAtFlushT 200 = true ∧ ¬ scanAtFlushT 150 = true :=
  ⟨(janitor_scan_every_nth_flush_templated 100 (by decide)).mpr (by decide),
    (janitor_scan_every_nth_flush_templated 200 (by decide)).mpr (by decide),
    fun hx => by
      have := (janitor_scan_every_nth_flush_templated 150 (by decide)).mp hx
      simp at this⟩

/-- C8: a janitor pass removes a present caller buffer exactly when its
try-lock succeeds (the buffer is not busy), its content is empty, and its
last-flush timestamp is older than the idle threshold; otherwise the buffer
is retained; and a subsequent write from an evicted caller transparently
recreates its buffer. -/
theorem janitor_eviction_iff (busy : Nat → Bool) (now tid : Nat) (st : LoggerState)
    (b : Buffer) (h : st.threadBuffer tid = some b) :
    ((cleanupBuffers busy now st).threadBuffer tid = none ↔
      (busy tid = false ∧ b.ss.isEmpty = true ∧
        now - b.lastFlushTime > idleThreadTimeThreshold)) ∧
    (∀ c now2, (overflow tid now2 c (cleanupBuffers busy now st)).threadBuffer tid
        ≠ none) := by
  constructor
  · unfold cleanupBuffers needsCleanup
    simp only [h]
    by_cases hb : busy tid
    · simp [hb]
    · simp [hb]
      intro _
      omega
  · intro c now2
    exact overflow_self tid now2 c _

/-- C8 witness: an empty tid-2 buffer created at time 0 is evicted by a
janitor pass at time 100, and the next write from tid 2 recreates it. -/
theorem janitor_eviction_iff_witness :
    ((cleanupBuffers (fun _ => false) 100 (overflow 2 0 none oneSinkState)).threadBuffer 2
        = none) ∧
    ((overflow 2 5 (some 'a')
        (cleanupBuffers (fun _ => false) 100
          (overflow 2 0 none oneSinkState))).threadBuffer 2 ≠ none) :=
  ⟨((janitor_eviction_iff (fun _ => false) 100 2 (overflow 2 0 none oneSinkState)
      { ss := [], lastFlushTime := 0 } (by decide)).1).mpr (by decide),
    (janitor_eviction_iff (fun _ => false) 100 2 (overflow 2 0 none oneSinkState)
      { ss := [], lastFlushTime := 0 } (by decide)).2 (some 'a') 5⟩

/-- C9: both Add overloads reject a null/unset sink before touching any
state (no partial registration), and with a valid sink each appends exactly
one entry to the combined sink list (the owning overload also appends one
entry to the owned list; the borrowing overload leaves it unchanged). -/
theorem register_null_rejected (st : LoggerState) (s : Sink) :
    addOwned none st = .error .invalidArgument ∧
    addBorrowed none st = .error .invalidArgument ∧
    applyOp (.add none) st = st ∧
    applyOp (.addRef none) st = st ∧
    (∃ st1, addOwned (some s) st = .ok st1 ∧
      st1.allLogs = st.allLogs ++ [st.sinks.length] ∧
      st1.ownedLogs = st.ownedLogs ++ [st.sinks.length]) ∧
    (∃ st2, addBorrowed (some s) st = .ok st2 ∧
      st2.allLogs = st.allLogs ++ [st.sinks.length] ∧
      st2.ownedLogs = st.ownedLogs) :=
  ⟨rfl, rfl, rfl, rfl, ⟨_, rfl, rfl, rfl⟩, ⟨_, rfl, rfl, rfl⟩⟩

/-- C10: every operation preserves the invariant that each owned sink also
appears in the combined list and that the combined list is at least as long
as the owned list; both Add overloads grow the combined list by exactly one
entry, appended at the end (existing entries untouched). -/
theorem owned_subset_all_invariant (op : LogOp) (st : LoggerState)
    (h : sinkInvariant st) :
    sinkInvariant (applyOp op st) ∧
    (∀ s : Sink, ∃ st1, addOwned (some s) st = .ok st1 ∧
      st1.allLogs = st.allLogs ++ [st.sinks.length]) ∧
    (∀ s : Sink, ∃ st2, addBorrowed (some s) st = .ok st2 ∧
      st2.allLogs = st.allLogs ++ [st.sinks.length]) := by
  obtain ⟨hmem, hlen⟩ := h
  refine ⟨?_, fun s => ⟨_, rfl, rfl⟩, fun s => ⟨_, rfl, rfl⟩⟩
  cases op with
  | add l =>
    cases l with
    | none => exact ⟨hmem, hlen⟩
    | some s =>
      constructor
      · intro p hp
        rcases List.mem_append.mp hp with hp1 | hp2
        · exact List.mem_append_left _ (hmem p hp1)
        · exact List.mem_append_right _ hp2
      · simp only [applyOp, addOwned, List.length_append, List.length_cons,
          List.length_nil]
        omega
  | addRef l =>
    cases l with
    | none => exact ⟨hmem, hlen⟩
    | some s =>
      constructor
      · intro p hp
        exact List.mem_append_left _ (hmem p hp)
      · simp only [applyOp, addBorrowed, List.length_append, List.length_cons,
          List.length_nil]
        omega
  | write tid now c =>
    constructor
    · intro p hp
      show p ∈ (overflow tid now c st).allLogs
      rw [overflow_allLogs]
      have hp2 : p ∈ (overflow tid now c st).ownedLogs := hp
      rw [overflow_ownedLogs] at hp2
      exact hmem p hp2
    · show (overflow tid now c st).ownedLogs.length ≤ (overflow tid now c st).allLogs.length
      rw [overflow_allLogs, overflow_ownedLogs]
      exact hlen
  | flush tid now busy =>
    show sinkInvariant (match sync tid now busy st with
      | .ok r => r.2
      | .error _ => st)
    by_cases hA : st.allLogs = []
    · have herr : sync tid now busy st = .error .configurationError := by
        unfold sync
        rw [if_pos (by rw [hA]; rfl)]
      rw [herr]
      exact ⟨hmem, hlen⟩
    · obtain ⟨r, st', heq, _, hall, hown, _, _⟩ := sync_spec tid now busy st hA
      rw [heq]
      constructor
      · intro p hp
        rw [hall]
        rw [hown] at hp
        exact hmem p hp
      · rw [hall, hown]
        exact hlen

/-- C10 witness: the invariant holds for the three-sink demo writer and is
preserved by a write; the growth facts hold there concretely. -/
theorem owned_subset_all_invariant_witness :
    sinkInvariant (applyOp (.write 1 0 (some 'x')) threeSinkState) ∧
    (∀ s : Sink, ∃ st1, addOwned (some s) threeSinkState = .ok st1 ∧
      st1.allLogs = threeSinkState.allLogs ++ [threeSinkState.sinks.length]) ∧
    (∀ s : Sink, ∃ st2, addBorrowed (some s) threeSinkState = .ok st2 ∧
      st2.allLogs = threeSinkState.allLogs ++ [threeSinkState.sinks.length]) :=
  owned_subset_all_invariant (.write 1 0 (some 'x')) threeSinkState
    ⟨by decide, by decide⟩
